import Mathlib

/-!
Verification of the document detection-and-rectification pipeline of
`flask_document_processor.py`.

The pipeline's geometric core is embedded shallowly:

* points carry exact integer coordinates (the Python code stores them as
  `float32`; every coordinate and every intermediate product appearing in the
  verified statements is an integer far below `2^24`, where `float32`
  arithmetic is exact);
* `int(np.sqrt(n))` for a nonnegative integer `n` is `Nat.sqrt n`
  (truncation of the real square root, exact at the magnitudes involved);
* the OpenCV primitives (`findContours`, `approxPolyDP`, `contourArea`,
  `HoughLines`) are opaque: their outcomes on a given input image are
  packaged as fields of `ImageModel`, and the embedded functions model the
  decision logic the Python source performs on those outcomes;
* the returned warped/cropped buffer is represented by the geometric recipe
  (`WarpKind`) the code uses to produce it from the input image.
-/

/-- A 2-D point with integer coordinates, standing for a `float32` point
`(x, y)` of the source. -/
structure Pt where
  x : Int
  y : Int
deriving DecidableEq

/-- Four points, the shape of the `(4, 2)` arrays handled by `order_points`
(`pts[0] .. pts[3]`). -/
structure P4 where
  p0 : Pt
  p1 : Pt
  p2 : Pt
  p3 : Pt
deriving DecidableEq

/-- Row access `pts[n]` of a `(4, 2)` array; indices beyond 3 never occur. -/
def P4.getN (q : P4) : Nat → Pt
  | 0 => q.p0
  | 1 => q.p1
  | 2 => q.p2
  | _ => q.p3

/-- The rows of the array as a list. -/
def P4.toList (q : P4) : List Pt := [q.p0, q.p1, q.p2, q.p3]

/-- Coordinate sum `x + y`, the entries of `s = pts.sum(axis=1)` in
`order_points`. -/
def psum (p : Pt) : Int := p.x + p.y

/-- The entries of `diff = np.diff(pts, axis=1)`: the second column minus the
first, that is `y - x` (NOT `x - y`). -/
def pdiff (p : Pt) : Int := p.y - p.x

/-- Index of the first minimum among four values, the semantics of
`np.argmin` on a length-4 array. -/
def argmin4 (a b c d : Int) : Nat :=
  if a ≤ b ∧ a ≤ c ∧ a ≤ d then 0
  else if b ≤ c ∧ b ≤ d then 1
  else if c ≤ d then 2
  else 3

/-- Index of the first maximum among four values, the semantics of
`np.argmax` on a length-4 array. -/
def argmax4 (a b c d : Int) : Nat :=
  if b ≤ a ∧ c ≤ a ∧ d ≤ a then 0
  else if c ≤ b ∧ d ≤ b then 1
  else if d ≤ c then 2
  else 3

/-- Embedding of `order_points(pts)` (lines 12-29 of the source).  The result
`rect` is returned with `p0 = rect[0] = tl`, `p1 = rect[1] = tr`,
`p2 = rect[2] = br`, `p3 = rect[3] = bl`:
`rect[0] = pts[argmin(s)]`, `rect[2] = pts[argmax(s)]`,
`rect[1] = pts[argmin(diff)]`, `rect[3] = pts[argmax(diff)]`. -/
def order_points (q : P4) : P4 :=
  { p0 := q.getN (argmin4 (psum q.p0) (psum q.p1) (psum q.p2) (psum q.p3))
    p1 := q.getN (argmin4 (pdiff q.p0) (pdiff q.p1) (pdiff q.p2) (pdiff q.p3))
    p2 := q.getN (argmax4 (psum q.p0) (psum q.p1) (psum q.p2) (psum q.p3))
    p3 := q.getN (argmax4 (pdiff q.p0) (pdiff q.p1) (pdiff q.p2) (pdiff q.p3)) }

/-- Minimum of four integers. -/
def min4 (a b c d : Int) : Int := min a (min b (min c d))

/-- Maximum of four integers. -/
def max4 (a b c d : Int) : Int := max a (max b (max c d))

lemma P4.getN_mem (q : P4) (n : Nat) : q.getN n ∈ q.toList := by
  match n with
  | 0 => simp [P4.getN, P4.toList]
  | 1 => simp [P4.getN, P4.toList]
  | 2 => simp [P4.getN, P4.toList]
  | n + 3 => simp [P4.getN, P4.toList]

lemma order_points_p0_mem (q : P4) : (order_points q).p0 ∈ q.toList :=
  q.getN_mem _

lemma order_points_p1_mem (q : P4) : (order_points q).p1 ∈ q.toList :=
  q.getN_mem _

lemma order_points_p2_mem (q : P4) : (order_points q).p2 ∈ q.toList :=
  q.getN_mem _

lemma order_points_p3_mem (q : P4) : (order_points q).p3 ∈ q.toList :=
  q.getN_mem _

lemma order_points_p0_le (q : P4) (p : Pt) (hp : p ∈ q.toList) :
    psum (order_points q).p0 ≤ psum p := by
  simp only [P4.toList, List.mem_cons, List.not_mem_nil, or_false] at hp
  simp only [order_points, argmin4]
  rcases hp with rfl | rfl | rfl | rfl <;>
    split_ifs <;> simp_all [P4.getN] <;> omega

lemma order_points_p2_ge (q : P4) (p : Pt) (hp : p ∈ q.toList) :
    psum p ≤ psum (order_points q).p2 := by
  simp only [P4.toList, List.mem_cons, List.not_mem_nil, or_false] at hp
  simp only [order_points, argmax4]
  rcases hp with rfl | rfl | rfl | rfl <;>
    split_ifs <;> simp_all [P4.getN] <;> omega

lemma order_points_p1_le (q : P4) (p : Pt) (hp : p ∈ q.toList) :
    pdiff (order_points q).p1 ≤ pdiff p := by
  simp only [P4.toList, List.mem_cons, List.not_mem_nil, or_false] at hp
  simp only [order_points, argmin4]
  rcases hp with rfl | rfl | rfl | rfl <;>
    split_ifs <;> simp_all [P4.getN] <;> omega

lemma order_points_p3_ge (q : P4) (p : Pt) (hp : p ∈ q.toList) :
    pdiff p ≤ pdiff (order_points q).p3 := by
  simp only [P4.toList, List.mem_cons, List.not_mem_nil, or_false] at hp
  simp only [order_points, argmax4]
  rcases hp with rfl | rfl | rfl | rfl <;>
    split_ifs <;> simp_all [P4.getN] <;> omega

/-- C1 (amended): for every 4-point input, in every input order,
`order_points` returns `(tl, tr, br, bl)` where `tl` attains the minimum
coordinate sum `x + y`, `br` the maximum sum, `tr` the MINIMUM of `y - x`
(equivalently the MAXIMUM of `x - y`), and `bl` the maximum of `y - x`
(minimum of `x - y`).  The source computes `diff = np.diff(pts, axis=1)`,
whose entries are `y - x`, so the spec's `x - y` formulas for `tr`/`bl` are
sign-flipped. -/
theorem order_points_extremes (q : P4) :
    psum (order_points q).p0
      = min4 (psum q.p0) (psum q.p1) (psum q.p2) (psum q.p3) ∧
    psum (order_points q).p2
      = max4 (psum q.p0) (psum q.p1) (psum q.p2) (psum q.p3) ∧
    pdiff (order_points q).p1
      = min4 (pdiff q.p0) (pdiff q.p1) (pdiff q.p2) (pdiff q.p3) ∧
    pdiff (order_points q).p3
      = max4 (pdiff q.p0) (pdiff q.p1) (pdiff q.p2) (pdiff q.p3) := by
  have h0 := order_points_p0_le q
  have h1 := order_points_p1_le q
  have h2 := order_points_p2_ge q
  have h3 := order_points_p3_ge q
  have m0 := order_points_p0_mem q
  have m1 := order_points_p1_mem q
  have m2 := order_points_p2_mem q
  have m3 := order_points_p3_mem q
  simp only [P4.toList, List.mem_cons, List.not_mem_nil, or_false] at m0 m1 m2 m3
  refine ⟨?_, ?_, ?_, ?_⟩
  · have a0 := h0 q.p0 (by simp [P4.toList])
    have a1 := h0 q.p1 (by simp [P4.toList])
    have a2 := h0 q.p2 (by simp [P4.toList])
    have a3 := h0 q.p3 (by simp [P4.toList])
    rcases m0 with e | e | e | e <;> rw [e] at a0 a1 a2 a3 ⊢ <;>
      simp [min4] <;> omega
  · have a0 := h2 q.p0 (by simp [P4.toList])
    have a1 := h2 q.p1 (by simp [P4.toList])
    have a2 := h2 q.p2 (by simp [P4.toList])
    have a3 := h2 q.p3 (by simp [P4.toList])
    rcases m2 with e | e | e | e <;> rw [e] at a0 a1 a2 a3 ⊢ <;>
      simp [max4] <;> omega
  · have a0 := h1 q.p0 (by simp [P4.toList])
    have a1 := h1 q.p1 (by simp [P4.toList])
    have a2 := h1 q.p2 (by simp [P4.toList])
    have a3 := h1 q.p3 (by simp [P4.toList])
    rcases m1 with e | e | e | e <;> rw [e] at a0 a1 a2 a3 ⊢ <;>
      simp [min4] <;> omega
  · have a0 := h3 q.p0 (by simp [P4.toList])
    have a1 := h3 q.p1 (by simp [P4.toList])
    have a2 := h3 q.p2 (by simp [P4.toList])
    have a3 := h3 q.p3 (by simp [P4.toList])
    rcases m3 with e | e | e | e <;> rw [e] at a0 a1 a2 a3 ⊢ <;>
      simp [max4] <;> omega

/-- The detected quadrilateral of the spec's 1000 by 800 end-to-end
scenario: corners (100,50), (900,80), (880,750), (120,720). -/
def qScenario : P4 := ⟨⟨100, 50⟩, ⟨900, 80⟩, ⟨880, 750⟩, ⟨120, 720⟩⟩

/-- C1 (counterexample): on the spec's own end-to-end corners the output
`tr = (900, 80)` has `x - y = 820`, which is the maximum, not the minimum,
of the four `x - y` values (the minimum, `-600`, is attained by
`bl = (120, 720)`); likewise `bl` attains the minimum rather than the
maximum of `x - y`.  The claim's `x - y` extremal description of `tr`/`bl`
is therefore false as stated. -/
theorem order_points_diff_sign_counterexample :
    (order_points qScenario).p1 = ⟨900, 80⟩ ∧
    ¬ ((order_points qScenario).p1.x - (order_points qScenario).p1.y ≤
        qScenario.p3.x - qScenario.p3.y) ∧
    ¬ (qScenario.p1.x - qScenario.p1.y ≤
        (order_points qScenario).p3.x - (order_points qScenario).p3.y) := by
  decide

/-- Integer-truncated Euclidean distance between two points:
`int(np.sqrt((px - qx) ** 2 + (py - qy) ** 2))`.  For a nonnegative integer
radicand this truncation is `Nat.sqrt`. -/
def idist (p q : Pt) : Nat :=
  Nat.sqrt (((p.x - q.x) ^ 2 + (p.y - q.y) ^ 2).toNat)

/-- The output-size computation of `four_point_transform(image, pts)`
(lines 31-58 of the source): order the points, take
`maxWidth = max(int(widthA), int(widthB))` over the distances
(`br`,`bl`) and (`tr`,`tl`), and
`maxHeight = max(int(heightA), int(heightB))` over the distances
(`tr`,`br`) and (`tl`,`bl`).  The function then unconditionally calls
`cv2.warpPerspective(image, M, (maxWidth, maxHeight))`, so the returned
buffer has `maxWidth` columns and `maxHeight` rows; there is no branch
guarding degenerate geometry. -/
def four_point_transform_size (q : P4) : Nat × Nat :=
  let r := order_points q
  let widthA := idist r.p2 r.p3
  let widthB := idist r.p1 r.p0
  let maxWidth := max widthA widthB
  let heightA := idist r.p1 r.p2
  let heightB := idist r.p0 r.p3
  let maxHeight := max heightA heightB
  (maxWidth, maxHeight)

lemma sqrt_eq_of_sq_le_lt (n r : Nat) (h1 : r * r ≤ n)
    (h2 : n < (r + 1) * (r + 1)) : Nat.sqrt n = r := by
  have ha : r ≤ Nat.sqrt n := Nat.le_sqrt.mpr h1
  have hb : Nat.sqrt n < r + 1 := Nat.sqrt_lt.mpr h2
  omega

lemma idist_eq (p q : Pt) (n r : Nat)
    (hn : (p.x - q.x) ^ 2 + (p.y - q.y) ^ 2 = (n : Int))
    (h1 : r * r ≤ n) (h2 : n < (r + 1) * (r + 1)) : idist p q = r := by
  unfold idist
  rw [hn, Int.toNat_natCast]
  exact sqrt_eq_of_sq_le_lt n r h1 h2

/-- C10: on the 45-degree-rotated square (5,0), (10,5), (5,10), (0,5) —
where (5,0) attains both the minimum coordinate sum and the minimum
`y - x` — `order_points` returns ((5,0), (5,0), (10,5), (5,10)): the input
point (5,0) occupies both the `tl` and `tr` slots and the input point (0,5)
does not appear in the output at all, so the output is not a permutation of
the input. -/
theorem order_points_not_permutation :
    order_points ⟨⟨5, 0⟩, ⟨10, 5⟩, ⟨5, 10⟩, ⟨0, 5⟩⟩
      = ⟨⟨5, 0⟩, ⟨5, 0⟩, ⟨10, 5⟩, ⟨5, 10⟩⟩ ∧
    (order_points ⟨⟨5, 0⟩, ⟨10, 5⟩, ⟨5, 10⟩, ⟨0, 5⟩⟩).p0
      = (order_points ⟨⟨5, 0⟩, ⟨10, 5⟩, ⟨5, 10⟩, ⟨0, 5⟩⟩).p1 ∧
    ⟨0, 5⟩ ∉ (order_points ⟨⟨5, 0⟩, ⟨10, 5⟩, ⟨5, 10⟩, ⟨0, 5⟩⟩).toList := by
  decide

/-- C2 (failing input): `four_point_transform` on the degenerate (collinear)
points (0,0), (10,0), (20,0), (30,0) computes `maxWidth = 30` and
`maxHeight = 0` and then unconditionally requests a 30 by 0 output buffer
from `cv2.warpPerspective` (after calling `cv2.getPerspectiveTransform` on a
source quadrilateral with duplicated corners).  No guard or fallback branch
exists in the source, so the degenerate geometry is not recovered locally. -/
theorem four_point_transform_degenerate_size :
    four_point_transform_size ⟨⟨0, 0⟩, ⟨10, 0⟩, ⟨20, 0⟩, ⟨30, 0⟩⟩ = (30, 0) := by
  have ho : order_points ⟨⟨0, 0⟩, ⟨10, 0⟩, ⟨20, 0⟩, ⟨30, 0⟩⟩
      = ⟨⟨0, 0⟩, ⟨30, 0⟩, ⟨30, 0⟩, ⟨0, 0⟩⟩ := by decide
  have w1 : idist (⟨30, 0⟩ : Pt) ⟨0, 0⟩ = 30 :=
    idist_eq _ _ 900 30 (by norm_num) (by norm_num) (by norm_num)
  have h1 : idist (⟨30, 0⟩ : Pt) ⟨30, 0⟩ = 0 :=
    idist_eq _ _ 0 0 (by norm_num) (by norm_num) (by norm_num)
  have h2 : idist (⟨0, 0⟩ : Pt) ⟨0, 0⟩ = 0 :=
    idist_eq _ _ 0 0 (by norm_num) (by norm_num) (by norm_num)
  simp [four_point_transform_size, ho, w1, h1, h2]

/-- C6: for any axis-aligned rectangle with integer corner coordinates,
width `W > 0` and height `H > 0`, handed to `four_point_transform` in any
input order, the computed output dimensions are exactly `(W, H)`: both
candidate widths equal `W` and both candidate heights equal `H`, and integer
truncation of the exact square roots loses nothing. -/
theorem four_point_transform_rect_size (x y : Int) (W H : Nat)
    (hW : 0 < W) (hH : 0 < H) (q : P4)
    (hperm : q.toList.Perm
      [⟨x, y⟩, ⟨x + W, y⟩, ⟨x + W, y + H⟩, ⟨x, y + H⟩]) :
    four_point_transform_size q = (W, H) := by
  have hWi : (1 : Int) ≤ (W : Int) := by exact_mod_cast hW
  have hHi : (1 : Int) ≤ (H : Int) := by exact_mod_cast hH
  have hA : (⟨x, y⟩ : Pt) ∈ q.toList := hperm.mem_iff.mpr (by simp)
  have hB : (⟨x + W, y⟩ : Pt) ∈ q.toList := hperm.mem_iff.mpr (by simp)
  have hC : (⟨x + W, y + H⟩ : Pt) ∈ q.toList := hperm.mem_iff.mpr (by simp)
  have hD : (⟨x, y + H⟩ : Pt) ∈ q.toList := hperm.mem_iff.mpr (by simp)
  have htl : (order_points q).p0 = (⟨x, y⟩ : Pt) := by
    have hm := hperm.mem_iff.mp (order_points_p0_mem q)
    have h1 := order_points_p0_le q ⟨x, y⟩ hA
    simp only [List.mem_cons, List.not_mem_nil, or_false] at hm
    rcases hm with e | e | e | e
    · exact e
    · exfalso; rw [e] at h1; simp only [psum] at h1; omega
    · exfalso; rw [e] at h1; simp only [psum] at h1; omega
    · exfalso; rw [e] at h1; simp only [psum] at h1; omega
  have hbr : (order_points q).p2 = (⟨x + W, y + H⟩ : Pt) := by
    have hm := hperm.mem_iff.mp (order_points_p2_mem q)
    have h1 := order_points_p2_ge q ⟨x + W, y + H⟩ hC
    simp only [List.mem_cons, List.not_mem_nil, or_false] at hm
    rcases hm with e | e | e | e
    · exfalso; rw [e] at h1; simp only [psum] at h1; omega
    · exfalso; rw [e] at h1; simp only [psum] at h1; omega
    · exact e
    · exfalso; rw [e] at h1; simp only [psum] at h1; omega
  have htr : (order_points q).p1 = (⟨x + W, y⟩ : Pt) := by
    have hm := hperm.mem_iff.mp (order_points_p1_mem q)
    have h1 := order_points_p1_le q ⟨x + W, y⟩ hB
    simp only [List.mem_cons, List.not_mem_nil, or_false] at hm
    rcases hm with e | e | e | e
    · exfalso; rw [e] at h1; simp only [pdiff] at h1; omega
    · exact e
    · exfalso; rw [e] at h1; simp only [pdiff] at h1; omega
    · exfalso; rw [e] at h1; simp only [pdiff] at h1; omega
  have hbl : (order_points q).p3 = (⟨x, y + H⟩ : Pt) := by
    have hm := hperm.mem_iff.mp (order_points_p3_mem q)
    have h1 := order_points_p3_ge q ⟨x, y + H⟩ hD
    simp only [List.mem_cons, List.not_mem_nil, or_false] at hm
    rcases hm with e | e | e | e
    · exfalso; rw [e] at h1; simp only [pdiff] at h1; omega
    · exfalso; rw [e] at h1; simp only [pdiff] at h1; omega
    · exfalso; rw [e] at h1; simp only [pdiff] at h1; omega
    · exact e
  have hsq : ∀ n : Nat, n < (n + 1) * (n + 1) := by
    intro n
    have : (n + 1) * (n + 1) = n * n + 2 * n + 1 := by ring
    omega
  have w1 : idist (⟨x + W, y + H⟩ : Pt) ⟨x, y + H⟩ = W := by
    apply idist_eq _ _ (W * W) W
    · simp
      ring
    · exact Nat.le_refl _
    · have : (W + 1) * (W + 1) = W * W + 2 * W + 1 := by ring
      omega
  have w2 : idist (⟨x + W, y⟩ : Pt) ⟨x, y⟩ = W := by
    apply idist_eq _ _ (W * W) W
    · simp
      ring
    · exact Nat.le_refl _
    · have : (W + 1) * (W + 1) = W * W + 2 * W + 1 := by ring
      omega
  have hh1 : idist (⟨x + W, y⟩ : Pt) ⟨x + W, y + H⟩ = H := by
    apply idist_eq _ _ (H * H) H
    · simp
      ring
    · exact Nat.le_refl _
    · have : (H + 1) * (H + 1) = H * H + 2 * H + 1 := by ring
      omega
  have hh2 : idist (⟨x, y⟩ : Pt) ⟨x, y + H⟩ = H := by
    apply idist_eq _ _ (H * H) H
    · simp
      ring
    · exact Nat.le_refl _
    · have : (H + 1) * (H + 1) = H * H + 2 * H + 1 := by ring
      omega
  simp [four_point_transform_size, htl, htr, hbr, hbl, w1, w2, hh1, hh2]

/-- C6 (witness): the 3 by 2 rectangle with corners (0,0), (3,0), (3,2),
(0,2), presented in a shuffled order, is rectified to a 3 by 2 output. -/
theorem four_point_transform_rect_size_witness :
    four_point_transform_size ⟨⟨3, 2⟩, ⟨0, 0⟩, ⟨0, 2⟩, ⟨3, 0⟩⟩ = (3, 2) :=
  four_point_transform_rect_size 0 0 3 2 (by decide) (by decide)
    ⟨⟨3, 2⟩, ⟨0, 0⟩, ⟨0, 2⟩, ⟨3, 0⟩⟩ (by decide)

lemma fpt_scenario_eval : four_point_transform_size qScenario = (800, 670) := by
  have ho : order_points qScenario
      = ⟨⟨100, 50⟩, ⟨900, 80⟩, ⟨880, 750⟩, ⟨120, 720⟩⟩ := by decide
  have w1 : idist (⟨880, 750⟩ : Pt) ⟨120, 720⟩ = 760 :=
    idist_eq _ _ 578500 760 (by norm_num) (by norm_num) (by norm_num)
  have w2 : idist (⟨900, 80⟩ : Pt) ⟨100, 50⟩ = 800 :=
    idist_eq _ _ 640900 800 (by norm_num) (by norm_num) (by norm_num)
  have h1 : idist (⟨900, 80⟩ : Pt) ⟨880, 750⟩ = 670 :=
    idist_eq _ _ 449300 670 (by norm_num) (by norm_num) (by norm_num)
  have h2 : idist (⟨100, 50⟩ : Pt) ⟨120, 720⟩ = 670 :=
    idist_eq _ _ 449300 670 (by norm_num) (by norm_num) (by norm_num)
  simp [four_point_transform_size, ho, w1, w2, h1, h2]

/-- C7 (counterexample): on the end-to-end scenario corners the computed
output width is `max(int(dist(br,bl)), int(dist(tr,tl))) = max(760, 800)
= 800`, not approximately 780 — it misses the claimed value by 20, far
outside the plus-or-minus-1 truncation tolerance. -/
theorem end_to_end_width_counterexample :
    (four_point_transform_size qScenario).1 = 800 ∧
    ¬ ((four_point_transform_size qScenario).1 ≤ 781) := by
  rw [fpt_scenario_eval]
  decide

/-- C7 (amended): on the 1000 by 800 scenario with detected corners
(100,50), (900,80), (880,750), (120,720), `order_points` assigns
tl = (100,50), tr = (900,80), br = (880,750), bl = (120,720), and
`four_point_transform` outputs an image of width
`max(int(dist(br,bl)), int(dist(tr,tl))) = max(760, 800) = 800` and height
`max(int(dist(tr,br)), int(dist(tl,bl))) = max(670, 670) = 670`. -/
theorem end_to_end_scenario_sizes :
    order_points qScenario = ⟨⟨100, 50⟩, ⟨900, 80⟩, ⟨880, 750⟩, ⟨120, 720⟩⟩ ∧
    four_point_transform_size qScenario = (800, 670) :=
  ⟨by decide, fpt_scenario_eval⟩

/-- A contour as consumed by the selection loop of `detect_document_edges`
(lines 86-101): `area` is the opaque `cv2.contourArea(contour)` result
(nonnegative; integer-valued in everything verified here) and `approx` is
the opaque `cv2.approxPolyDP(contour, 0.02 * cv2.arcLength(contour, True),
True)` polygon, reshaped to a point list. -/
structure Contour where
  area : Int
  approx : List Pt
deriving DecidableEq

/-- The loop's acceptance test:
`len(approx) == 4 and cv2.contourArea(contour) > 10000`. -/
def qualifies (c : Contour) : Bool :=
  c.approx.length == 4 && decide (10000 < c.area)

/-- The contour-selection logic of `detect_document_edges`: sort the
contours by area in descending order (`sorted(contours, key=cv2.contourArea,
reverse=True)`, a stable sort) and take the first one passing `qualifies`
(the loop with `break`). -/
def select_document_contour (contours : List Contour) : Option Contour :=
  (contours.mergeSort (fun a b => decide (b.area ≤ a.area))).find? qualifies

/-- The detection tier that produced a result.  The Python source has no
such tag in its return value; the tier is recorded here as ghost
information identifying the branch taken. -/
inductive SourceMethod
  | ContourMatch
  | LineEstimate
  | PaddedFallback
deriving DecidableEq

/-- The recipe by which the returned buffer is produced from the input
image: either `four_point_transform(original, pts)` or the axis-aligned
slice `image[p : h - p, p : w - p]`. -/
inductive WarpKind
  | warp (pts : P4)
  | crop (padding : Nat)
deriving DecidableEq

/-- An input image together with the outcomes of the opaque OpenCV analyses
the function performs on it: `h, w = image.shape[:2]`, the contour list
produced by `cv2.findContours` on the computed edge map, and the number of
lines found by `cv2.HoughLines` in the alternative method (0 when it
returns `None`). -/
structure ImageModel where
  h : Nat
  w : Nat
  contours : List Contour
  numLines : Nat
deriving DecidableEq

/-- The outcome of `detect_document_edges`: the Python function returns the
pair `(image, corners)` — captured by `image` (the buffer's construction
recipe) and `corners` — while `method` is ghost information recording which
tier produced it (it is NOT part of the Python return value, see
`codeReturn`). -/
structure DetectResult where
  image : WarpKind
  corners : List Pt
  method : SourceMethod
deriving DecidableEq

/-- The value the Python function actually returns to its caller: the
2-tuple `(warped_or_cropped_image, corners)` and nothing else. -/
def codeReturn (r : DetectResult) : WarpKind × List Pt := (r.image, r.corners)

/-- Reshape of a length-4 point list into a `(4, 2)` array
(`document_contour.reshape(4, 2)` and the `np.array([...])` corner
constructions). -/
def toP4 (l : List Pt) : P4 :=
  ⟨l.getD 0 ⟨0, 0⟩, l.getD 1 ⟨0, 0⟩, l.getD 2 ⟨0, 0⟩, l.getD 3 ⟨0, 0⟩⟩

/-- The corner list `[[p, p], [w - p, p], [w - p, h - p], [p, h - p]]`
built by both fallback tiers (lines 133-138 and 148-153). -/
def padded_corners (h w padding : Nat) : List Pt :=
  [⟨(padding : Int), (padding : Int)⟩,
   ⟨((w - padding : Nat) : Int), (padding : Int)⟩,
   ⟨((w - padding : Nat) : Int), ((h - padding : Nat) : Int)⟩,
   ⟨(padding : Int), ((h - padding : Nat) : Int)⟩]

/-- Embedding of `detect_document_edges_alternative` (lines 111-155): if
`lines is not None and len(lines) >= 4`, inset by `min(h, w) // 20` and
rectify through `four_point_transform` (Tier 1); otherwise return the
axis-aligned crop `image[p : h - p, p : w - p]` with `p = min(h, w) // 40`
(Tier 2). -/
def detect_document_edges_alternative (img : ImageModel) : DetectResult :=
  if 4 ≤ img.numLines then
    let padding := min img.h img.w / 20
    { image := WarpKind.warp (toP4 (padded_corners img.h img.w padding))
      corners := padded_corners img.h img.w padding
      method := SourceMethod.LineEstimate }
  else
    let padding := min img.h img.w / 40
    { image := WarpKind.crop padding
      corners := padded_corners img.h img.w padding
      method := SourceMethod.PaddedFallback }

/-- Embedding of `detect_document_edges` (lines 60-109): when the contour
search finds a qualifying contour, warp through its approximated corners;
otherwise defer to the alternative method. -/
def detect_document_edges (img : ImageModel) : DetectResult :=
  match select_document_contour img.contours with
  | some c =>
    { image := WarpKind.warp (toP4 c.approx)
      corners := c.approx
      method := SourceMethod.ContourMatch }
  | none => detect_document_edges_alternative img

/-- Dimensions (rows, columns) of the buffer the result hands back:
`cv2.warpPerspective(..., (maxWidth, maxHeight))` yields a
`maxHeight` by `maxWidth` buffer, and the slice `image[p : h - p, p : w - p]`
yields an `(h - 2p)` by `(w - 2p)` buffer. -/
def result_dims (img : ImageModel) (r : DetectResult) : Nat × Nat :=
  match r.image with
  | WarpKind.warp pts =>
      ((four_point_transform_size pts).2, (four_point_transform_size pts).1)
  | WarpKind.crop p => (img.h - p - p, img.w - p - p)

/-- C3: for every input, `detect_document_edges` returns a 4-corner result,
and whenever the contour search finds no qualifying quadrilateral the
result comes from Tier 1 (`LineEstimate`) or Tier 2 (`PaddedFallback`) —
detection failure never leaves the caller without corners. -/
theorem detect_document_edges_total (img : ImageModel) :
    (detect_document_edges img).corners.length = 4 ∧
    (select_document_contour img.contours = none →
      (detect_document_edges img).method = SourceMethod.LineEstimate ∨
      (detect_document_edges img).method = SourceMethod.PaddedFallback) := by
  rcases hsel : select_document_contour img.contours with _ | c
  · simp only [detect_document_edges, hsel]
    unfold detect_document_edges_alternative
    split_ifs with hl <;> simp [padded_corners]
  · have hq : qualifies c = true := by
      unfold select_document_contour at hsel
      exact List.find?_some hsel
    have hlen : c.approx.length = 4 := by
      simp only [qualifies, Bool.and_eq_true, beq_iff_eq,
        decide_eq_true_eq] at hq
      exact hq.1
    simp only [detect_document_edges, hsel]
    refine ⟨hlen, ?_⟩
    intro h
    exact absurd h (by simp)

/-- The uniform gray 500 by 500 input of the spec's second end-to-end
scenario: the edge map yields no contours and `cv2.HoughLines` returns
`None`. -/
def imgGray : ImageModel := ⟨500, 500, [], 0⟩

/-- C3 (witness): on the 500 by 500 input with no contours and no lines,
the pipeline still returns 4 corners through a fallback tier. -/
theorem detect_document_edges_total_witness :
    (detect_document_edges imgGray).corners.length = 4 ∧
    ((detect_document_edges imgGray).method = SourceMethod.LineEstimate ∨
      (detect_document_edges imgGray).method = SourceMethod.PaddedFallback) :=
  ⟨(detect_document_edges_total imgGray).1,
   (detect_document_edges_total imgGray).2
     (by simp [select_document_contour, imgGray, List.mergeSort_nil])⟩

/-- C5: if a candidate list contains a contour `c` passing the
vertex-count-4 and area-over-10000 filter while every other entry fails the
filter and has smaller area, then the selection returns `c` — whatever the
input order of the candidate list, since the list is area-sorted and `c` is
the only element the loop can accept. -/
theorem select_document_contour_unique_quad (l : List Contour) (c : Contour)
    (hc : c ∈ l) (hq : qualifies c = true)
    (hothers : ∀ d ∈ l, d ≠ c → qualifies d = false ∧ d.area < c.area) :
    select_document_contour l = some c := by
  unfold select_document_contour
  have hperm : (l.mergeSort (fun a b => decide (b.area ≤ a.area))).Perm l :=
    List.mergeSort_perm l _
  have hcs : c ∈ l.mergeSort (fun a b => decide (b.area ≤ a.area)) :=
    hperm.mem_iff.mpr hc
  have hsome :
      ((l.mergeSort (fun a b => decide (b.area ≤ a.area))).find? qualifies).isSome :=
    List.find?_isSome.mpr ⟨c, hcs, hq⟩
  obtain ⟨a, ha_eq⟩ := Option.isSome_iff_exists.mp hsome
  rw [ha_eq]
  have ha : a ∈ l := hperm.mem_iff.mp (List.mem_of_find?_eq_some ha_eq)
  have hqa : qualifies a = true := List.find?_some ha_eq
  by_cases hac : a = c
  · rw [hac]
  · exact absurd hqa (by simp [(hothers a ha hac).1])

/-- A large clean quadrilateral contour: area 200000, 4-vertex
approximation. -/
def docContour : Contour :=
  ⟨200000, [⟨30, 30⟩, ⟨570, 30⟩, ⟨570, 770⟩, ⟨30, 770⟩]⟩

/-- A small noise contour whose approximation has 3 vertices. -/
def noiseTri : Contour := ⟨500, [⟨0, 0⟩, ⟨5, 0⟩, ⟨5, 5⟩]⟩

/-- A small noise contour whose approximation has 5 vertices. -/
def noisePent : Contour :=
  ⟨900, [⟨0, 0⟩, ⟨9, 0⟩, ⟨9, 9⟩, ⟨0, 9⟩, ⟨4, 12⟩]⟩

/-- C5 (witness): with the large quadrilateral placed between two smaller
noise contours in the candidate list, it is still the one selected. -/
theorem select_document_contour_unique_quad_witness :
    select_document_contour [noiseTri, docContour, noisePent]
      = some docContour :=
  select_document_contour_unique_quad [noiseTri, docContour, noisePent]
    docContour (by decide) (by decide) (by decide)

lemma select_singleton (c : Contour) (hq : qualifies c = true) :
    select_document_contour [c] = some c := by
  unfold select_document_contour
  rw [List.mergeSort_singleton]
  simp [List.find?, hq]

lemma detect_imgGray_eval :
    detect_document_edges imgGray =
      ⟨WarpKind.crop 12,
       [⟨12, 12⟩, ⟨488, 12⟩, ⟨488, 488⟩, ⟨12, 488⟩],
       SourceMethod.PaddedFallback⟩ := by
  unfold detect_document_edges
  rw [show select_document_contour imgGray.contours = none from by
    simp [select_document_contour, imgGray, List.mergeSort_nil]]
  decide

/-- C8 (counterexample): on the 500 by 500 input where both contour and
line detection fail, the returned corners are NOT
(12,12), (487,12), (487,487), (12,487) and the crop is NOT 475 by 475:
the code builds corners from `w - padding = 500 - 12 = 488` (not 487) and the
slice `image[12 : 488, 12 : 488]` has 476 rows and columns (not 475). -/
theorem fallback_crop_counterexample :
    (detect_document_edges imgGray).corners ≠
      [⟨12, 12⟩, ⟨487, 12⟩, ⟨487, 487⟩, ⟨12, 487⟩] ∧
    result_dims imgGray (detect_document_edges imgGray) ≠ (475, 475) := by
  rw [detect_imgGray_eval]
  decide

/-- C8 (amended): for the 500 by 500 input in which contour detection and
line detection both fail, Tier 2 computes `padding = 500 // 40 = 12` and
returns a 476 by 476 axis-aligned crop whose reported corners are
(12,12), (488,12), (488,488), (12,488). -/
theorem fallback_crop_result :
    detect_document_edges imgGray =
      ⟨WarpKind.crop 12,
       [⟨12, 12⟩, ⟨488, 12⟩, ⟨488, 488⟩, ⟨12, 488⟩],
       SourceMethod.PaddedFallback⟩ ∧
    result_dims imgGray (detect_document_edges imgGray) = (476, 476) := by
  refine ⟨detect_imgGray_eval, ?_⟩
  rw [detect_imgGray_eval]
  decide

/-- A 1000 by 1000 image whose edge map yields one qualifying contour whose
approximated corners happen to coincide with the Tier-1 padded corners
(inset 50 = 1000 // 20), and on which Hough finds 8 lines. -/
def imgContourA : ImageModel :=
  ⟨1000, 1000,
   [⟨810000, [⟨50, 50⟩, ⟨950, 50⟩, ⟨950, 950⟩, ⟨50, 950⟩]⟩], 8⟩

/-- A 1000 by 1000 image with no usable contours but 8 Hough lines. -/
def imgLinesA : ImageModel := ⟨1000, 1000, [], 8⟩

/-- An 800 by 600 image with one qualifying contour whose approximation
coincides with the Tier-1 padded corners (inset 30 = 600 // 20), and 4
Hough lines. -/
def imgContourB : ImageModel :=
  ⟨800, 600,
   [⟨200000, [⟨30, 30⟩, ⟨570, 30⟩, ⟨570, 770⟩, ⟨30, 770⟩]⟩], 4⟩

/-- An 800 by 600 image with no usable contours and 4 Hough lines. -/
def imgLinesB : ImageModel := ⟨800, 600, [], 4⟩

lemma detect_imgContourA_eval :
    detect_document_edges imgContourA =
      ⟨WarpKind.warp (toP4 [⟨50, 50⟩, ⟨950, 50⟩, ⟨950, 950⟩, ⟨50, 950⟩]),
       [⟨50, 50⟩, ⟨950, 50⟩, ⟨950, 950⟩, ⟨50, 950⟩],
       SourceMethod.ContourMatch⟩ := by
  unfold detect_document_edges
  rw [show select_document_contour imgContourA.contours
      = some ⟨810000, [⟨50, 50⟩, ⟨950, 50⟩, ⟨950, 950⟩, ⟨50, 950⟩]⟩ from
    select_singleton _ (by decide)]

lemma detect_imgLinesA_eval :
    detect_document_edges imgLinesA =
      ⟨WarpKind.warp (toP4 (padded_corners 1000 1000 50)),
       padded_corners 1000 1000 50, SourceMethod.LineEstimate⟩ := by
  unfold detect_document_edges
  rw [show select_document_contour imgLinesA.contours = none from by
    simp [select_document_contour, imgLinesA, List.mergeSort_nil]]
  decide

lemma detect_imgContourB_eval :
    detect_document_edges imgContourB =
      ⟨WarpKind.warp (toP4 [⟨30, 30⟩, ⟨570, 30⟩, ⟨570, 770⟩, ⟨30, 770⟩]),
       [⟨30, 30⟩, ⟨570, 30⟩, ⟨570, 770⟩, ⟨30, 770⟩],
       SourceMethod.ContourMatch⟩ := by
  unfold detect_document_edges
  rw [show select_document_contour imgContourB.contours
      = some ⟨200000, [⟨30, 30⟩, ⟨570, 30⟩, ⟨570, 770⟩, ⟨30, 770⟩]⟩ from
    select_singleton _ (by decide)]

lemma detect_imgLinesB_eval :
    detect_document_edges imgLinesB =
      ⟨WarpKind.warp (toP4 (padded_corners 800 600 30)),
       padded_corners 800 600 30, SourceMethod.LineEstimate⟩ := by
  unfold detect_document_edges
  rw [show select_document_contour imgLinesB.contours = none from by
    simp [select_document_contour, imgLinesB, List.mergeSort_nil]]
  decide

/-- C4 (counterexample): two runs of `detect_document_edges` — one where a
qualifying contour is matched (tier `ContourMatch`), one where only Hough
lines are found (tier `LineEstimate`) — return EXACTLY the same value to
the caller (the same warp recipe and the same corner list), while the tiers
that produced them differ.  The Python return value is the bare 2-tuple
`(warped, corners)`; it contains no `sourceMethod` component, and no tag
identifying the producing tier can be a function of it. -/
theorem detect_result_method_collision :
    codeReturn (detect_document_edges imgContourA)
      = codeReturn (detect_document_edges imgLinesA) ∧
    (detect_document_edges imgContourA).method
      ≠ (detect_document_edges imgLinesA).method := by
  rw [detect_imgContourA_eval, detect_imgLinesA_eval]
  decide

/-- C4 (amended): internally each result is produced by one of the three
tiers ContourMatch, LineEstimate, PaddedFallback, but the value returned to
the caller consists of the rectified image and the 4 corners only — no
sourceMethod tag is included, as witnessed by a second pair of runs with
identical returned values and different producing tiers. -/
theorem detect_return_method_not_included :
    codeReturn (detect_document_edges imgContourB)
      = codeReturn (detect_document_edges imgLinesB) ∧
    (detect_document_edges imgContourB).method = SourceMethod.ContourMatch ∧
    (detect_document_edges imgLinesB).method = SourceMethod.LineEstimate := by
  rw [detect_imgContourB_eval, detect_imgLinesB_eval]
  decide
